import Mathlib

/-!
# Verification of `torchensemble/fusion.py` (Ensemble-Pytorch)

Shallow embedding of the fusion ensemble module: `FusionClassifier` and
`FusionRegressor`.  Tensors are modelled over the reals; a batch is a list of
(example, target) rows and estimators act row-wise on examples.  An estimator
is a function of the train/eval mode flag and the input example, returning its
output vector (indices beyond the inferred output width are never read):
in eval mode a torch module is a deterministic function of its input, and the
mode flag selects between the train-time and eval-time behaviours.

External collaborators that live outside `fusion.py` (`BaseModule.__init__`,
`_make_estimator`, `_decide_n_outputs`, `_validate_parameters`,
`utils.set_optimizer`, autograd and the optimizer step) are modelled from the
spec; the control flow, the ordering of the statements, the averaging
formulas and the evaluation metrics are translated from `fusion.py` itself.
-/

namespace Torchensemble

/-- A base estimator: `mode → example → output vector` (`ℕ → ℝ`, only indices
below the inferred output width are meaningful).  The `Bool` is the module's
train/eval mode flag at call time. -/
abbrev Estimator (ι : Type) := Bool → ι → ℕ → ℝ

/-- The mutable state of a fusion ensemble (`BaseModule` fields used by
`fusion.py`).  `calls` instruments the number of factory invocations made so
far, so that "the factory is invoked exactly `n_estimators` times per `fit`
call" is expressible; it mirrors no stored Python field. -/
structure EnsembleState (ι : Type) where
  n_estimators : ℕ
  device : ℕ
  estimators_ : List (Estimator ι)
  n_outputs : ℕ
  training : Bool
  calls : ℕ

/-- Modelled from the spec: `BaseModule` initialization — the ordered
collection of estimators is empty until `fit`; a torch module starts in
train mode. -/
def initState (ι : Type) (n d : ℕ) : EnsembleState ι :=
  { n_estimators := n, device := d, estimators_ := [], n_outputs := 0,
    training := true, calls := 0 }

/-- A classification loader: batches of (example, integer class target) rows.
The default `DataLoader` partitions its dataset into batches, so
`len(test_loader.dataset)` is the total number of rows across batches. -/
abbrev ClsLoader (ι : Type) := List (List (ι × ℕ))

/-- A regression loader: batches of (example, target vector) rows plus the
width of each target vector (part of the target tensor's shape). -/
structure RegLoader (ι : Type) where
  width : ℕ
  batches : List (List (ι × (ℕ → ℝ)))

/-- Environment of external collaborators used by `fit`:
`make i` is the result of the `i`-th invocation of the zero-argument
estimator factory (`_make_estimator`) — the counter models that every call
returns a fresh instance; `step b es e` is the new parameterization of
estimator `e` after the single optimizer step for batch `b`, whose gradient
comes from the one shared loss over all current estimators `es` (the
optimizer updates each held estimator's parameters in place, so it can
neither add nor remove list elements). -/
structure FitEnv (ι β : Type) where
  make : ℕ → Estimator ι
  step : β → List (Estimator ι) → Estimator ι → Estimator ι

/-- Errors raised before the training loop of `fit` runs. -/
inductive FitError where
  | validation
  | unsupportedOptimizer
  deriving DecidableEq

/-- Modelled from the spec: `BaseModule._validate_parameters` accepts exactly
lr > 0, weight_decay ≥ 0, epochs > 0, log_interval > 0 and raises a
validation error otherwise. -/
abbrev validParameters (lr weight_decay : ℚ) (epochs log_interval : ℤ) : Prop :=
  0 < lr ∧ 0 ≤ weight_decay ∧ 0 < epochs ∧ 0 < log_interval

/-- Modelled from the spec: `utils.set_optimizer` accepts exactly the kinds
"SGD", "Adam", "RMSprop" and raises an unsupported-kind error otherwise. -/
abbrev validOptimizerKind (optimizer : String) : Prop :=
  optimizer = "SGD" ∨ optimizer = "Adam" ∨ optimizer = "RMSprop"

/-- Modelled from the spec: `BaseModule._decide_n_outputs` with
`is_classification=True` infers the number of distinct label classes from one
representative batch (the first). -/
def decideOutputsCls {ι : Type} (train_loader : ClsLoader ι) : ℕ :=
  (((train_loader.headD []).map Prod.snd).dedup).length

/-- Modelled from the spec: `BaseModule._decide_n_outputs` with
`is_classification=False` infers the width of the target vector. -/
def decideOutputsReg {ι : Type} (train_loader : RegLoader ι) : ℕ :=
  train_loader.width

/-- The fresh estimator instances appended by one `fit` call: the factory is
invoked `n_estimators` times, in order of invocation. -/
def freshEstimators {ι β : Type} (env : FitEnv ι β) (s : EnsembleState ι) :
    List (Estimator ι) :=
  (List.range s.n_estimators).map (fun i => env.make (s.calls + i))

/-- The training loop of `fit`: `epochs × batches` iterations; each batch
performs one optimizer step, updating every estimator's parameters in place
from the single shared loss. -/
def trainLoop {ι β : Type} (env : FitEnv ι β) (loader : List β)
    (epochs : ℤ) (es : List (Estimator ι)) : List (Estimator ι) :=
  (List.range epochs.toNat).foldl
    (fun es _ => loader.foldl (fun es b => es.map (env.step b es)) es) es

/-- `FusionClassifier._forward`: start from a zero row of width `n_outputs`
and add `estimator(X) / n_estimators` for each held estimator (one row of the
batch; the tensor op is elementwise over rows). -/
noncomputable def FusionClassifier._forward {ι : Type}
    (s : EnsembleState ι) (X : ι) : ℕ → ℝ := fun j =>
  if j < s.n_outputs then
    s.estimators_.foldl (fun acc e => acc + e s.training X j / (s.n_estimators : ℝ)) 0
  else 0

/-- One row of `F.softmax(·, dim=1)` on a row of width `K`. -/
noncomputable def softmaxRow (K : ℕ) (v : ℕ → ℝ) : ℕ → ℝ := fun j =>
  if j < K then Real.exp (v j) / ∑ i ∈ Finset.range K, Real.exp (v i) else 0

/-- `FusionClassifier.forward`: softmax of the averaged output. -/
noncomputable def FusionClassifier.forward {ι : Type}
    (s : EnsembleState ι) (X : ι) : ℕ → ℝ :=
  softmaxRow s.n_outputs (FusionClassifier._forward s X)

/-- `FusionRegressor.forward`: same averaging as the classifier's
`_forward`, no softmax (the two bodies are verbatim duplicates in the
source). -/
noncomputable def FusionRegressor.forward {ι : Type}
    (s : EnsembleState ι) (X : ι) : ℕ → ℝ := fun j =>
  if j < s.n_outputs then
    s.estimators_.foldl (fun acc e => acc + e s.training X j / (s.n_estimators : ℝ)) 0
  else 0

/-- `output.data.max(1)[1]` on one row of width `K`: the index of the first
maximal entry. -/
noncomputable def argmaxIdx (K : ℕ) (v : ℕ → ℝ) : ℕ :=
  (List.range K).foldl (fun best j => if v best < v j then j else best) 0

/-- The correct-prediction count printed by `FusionClassifier.fit`
(lines 102–104): arg-max of the pre-softmax `_forward` output against the
integer targets of the batch. -/
noncomputable def FusionClassifier.logCorrect {ι : Type}
    (s : EnsembleState ι) (b : List (ι × ℕ)) : ℕ :=
  b.countP (fun r => argmaxIdx s.n_outputs (FusionClassifier._forward s r.1) == r.2)

/-- The match count accumulated by `FusionClassifier.predict`
(lines 130–132): arg-max of the softmaxed `forward` output against the
integer targets of the batch. -/
noncomputable def FusionClassifier.predCorrect {ι : Type}
    (s : EnsembleState ι) (b : List (ι × ℕ)) : ℕ :=
  b.countP (fun r => argmaxIdx s.n_outputs (FusionClassifier.forward s r.1) == r.2)

/-- `FusionClassifier.fit`, in source statement order: (1) append
`n_estimators` fresh estimators from the factory; (2) infer and store
`n_outputs` (classification flag `True`); (3) build the optimizer (raises on
an unsupported kind); (4) `self.train()`; (5) `_validate_parameters` (raises
a validation error on bad hyperparameters); (6) the training loop.  A raise
returns the error together with the state as already mutated (Python
exception semantics).  The loss value and printed status lines do not affect
the ensemble state and are not modelled. -/
def FusionClassifier.fit {ι : Type} (env : FitEnv ι (List (ι × ℕ)))
    (s : EnsembleState ι) (train_loader : ClsLoader ι)
    (lr weight_decay : ℚ) (epochs : ℤ) (optimizer : String)
    (log_interval : ℤ) : Option FitError × EnsembleState ι :=
  let s1 : EnsembleState ι :=
    { s with estimators_ := s.estimators_ ++ freshEstimators env s,
             calls := s.calls + s.n_estimators,
             n_outputs := decideOutputsCls train_loader }
  if ¬ validOptimizerKind optimizer then (some FitError.unsupportedOptimizer, s1)
  else
    let s2 : EnsembleState ι := { s1 with training := true }
    if ¬ validParameters lr weight_decay epochs log_interval then
      (some FitError.validation, s2)
    else
      (none, { s2 with estimators_ := trainLoop env train_loader epochs s2.estimators_ })

/-- `FusionRegressor.fit`: identical control flow to the classifier's `fit`
with the classification flag `False` and the MSE criterion. -/
def FusionRegressor.fit {ι : Type} (env : FitEnv ι (List (ι × (ℕ → ℝ))))
    (s : EnsembleState ι) (train_loader : RegLoader ι)
    (lr weight_decay : ℚ) (epochs : ℤ) (optimizer : String)
    (log_interval : ℤ) : Option FitError × EnsembleState ι :=
  let s1 : EnsembleState ι :=
    { s with estimators_ := s.estimators_ ++ freshEstimators env s,
             calls := s.calls + s.n_estimators,
             n_outputs := decideOutputsReg train_loader }
  if ¬ validOptimizerKind optimizer then (some FitError.unsupportedOptimizer, s1)
  else
    let s2 : EnsembleState ι := { s1 with training := true }
    if ¬ validParameters lr weight_decay epochs log_interval then
      (some FitError.validation, s2)
    else
      (none, { s2 with estimators_ := trainLoop env train_loader.batches epochs s2.estimators_ })

/-- `FusionClassifier.predict`: `self.eval()`, then accumulate the match
count over all batches and return `100. * float(correct) /
len(test_loader.dataset)`.  A Python float division by zero raises
`ZeroDivisionError`, modelled as `none`. -/
noncomputable def FusionClassifier.predict {ι : Type} (s : EnsembleState ι)
    (test_loader : ClsLoader ι) : Option ℝ × EnsembleState ι :=
  let s' : EnsembleState ι := { s with training := false }
  let total : ℕ := (test_loader.map List.length).sum
  let correct : ℕ := (test_loader.map (fun b => FusionClassifier.predCorrect s' b)).sum
  if total = 0 then (none, s')
  else (some (100 * (correct : ℝ) / (total : ℝ)), s')

/-- `nn.MSELoss()` with the default mean reduction on a batch of (output
row, target row) pairs of width `K`: the mean of the squared entrywise
differences over all `B·K` elements. -/
noncomputable def mseCriterion (K : ℕ) (rows : List ((ℕ → ℝ) × (ℕ → ℝ))) : ℝ :=
  (rows.map (fun p => ∑ j ∈ Finset.range K, (p.1 j - p.2 j) ^ 2)).sum
    / ((rows.length : ℝ) * (K : ℝ))

/-- The per-batch MSE accumulated by `FusionRegressor.predict`: the criterion
applied to the averaged forward output (eval mode) against the targets.  The
output and target tensors must share their shape, so the width is
`n_outputs`. -/
noncomputable def FusionRegressor.batchMSE {ι : Type} (s : EnsembleState ι)
    (b : List (ι × (ℕ → ℝ))) : ℝ :=
  mseCriterion s.n_outputs (b.map (fun r => (FusionRegressor.forward s r.1, r.2)))

/-- `FusionRegressor.predict`: `self.eval()`, then accumulate the per-batch
MSE values and return `mse / len(test_loader)` — the sum of per-batch MSEs
divided by the number of batches.  A Python float division by zero raises
`ZeroDivisionError`, modelled as `none`. -/
noncomputable def FusionRegressor.predict {ι : Type} (s : EnsembleState ι)
    (test_loader : RegLoader ι) : Option ℝ × EnsembleState ι :=
  let s' : EnsembleState ι := { s with training := false }
  if test_loader.batches.length = 0 then (none, s')
  else
    (some ((test_loader.batches.map (fun b => FusionRegressor.batchMSE s' b)).sum
        / (test_loader.batches.length : ℝ)), s')

/-! ## Helper lemmas -/

lemma foldl_add_eq_sum {α : Type} (f : α → ℝ) :
    ∀ (l : List α) (a : ℝ), l.foldl (fun acc e => acc + f e) a = a + (l.map f).sum
  | [], a => by simp
  | x :: xs, a => by
      simp only [List.foldl_cons, List.map_cons, List.sum_cons,
        foldl_add_eq_sum f xs (a + f x)]
      ring

lemma sum_map_div {α : Type} (l : List α) (f : α → ℝ) (c : ℝ) :
    (l.map (fun e => f e / c)).sum = (l.map f).sum / c := by
  induction l with
  | nil => simp
  | cons x xs ih => simp [ih, add_div]

/-- The common averaging fold of `FusionClassifier._forward` and
`FusionRegressor.forward`, rewritten as a sum. -/
lemma avg_foldl_eq {ι : Type} (es : List (Estimator ι)) (m : Bool) (X : ι)
    (j : ℕ) (N : ℕ) :
    es.foldl (fun acc e => acc + e m X j / (N : ℝ)) 0
      = (es.map (fun e => e m X j)).sum / (N : ℝ) := by
  have h := foldl_add_eq_sum (fun e : Estimator ι => e m X j / (N : ℝ)) es 0
  rw [h, zero_add, sum_map_div]

lemma sum_map_nat_le {α : Type} (l : List α) (f g : α → ℕ)
    (h : ∀ a ∈ l, f a ≤ g a) : (l.map f).sum ≤ (l.map g).sum := by
  induction l with
  | nil => simp
  | cons x xs ih =>
      simp only [List.map_cons, List.sum_cons]
      have := h x (List.mem_cons_self x xs)
      have := ih (fun a ha => h a (List.mem_cons_of_mem x ha))
      omega

lemma sum_map_nat_eq_iff {α : Type} (f g : α → ℕ) :
    ∀ l : List α, (∀ a ∈ l, f a ≤ g a) →
      ((l.map f).sum = (l.map g).sum ↔ ∀ a ∈ l, f a = g a)
  | [], _ => by simp
  | x :: xs, h => by
      have hx : f x ≤ g x := h x (by simp)
      have htail : ∀ a ∈ xs, f a ≤ g a := fun a ha => h a (by simp [ha])
      have hle := sum_map_nat_le xs f g htail
      have ihx := sum_map_nat_eq_iff f g xs htail
      simp only [List.map_cons, List.sum_cons, List.mem_cons]
      constructor
      · intro hsum
        have hfx : f x = g x := by omega
        have hrest : (xs.map f).sum = (xs.map g).sum := by omega
        intro a ha
        rcases ha with rfl | ha
        · exact hfx
        · exact (ihx.mp hrest) a ha
      · intro hall
        have hfx : f x = g x := hall x (Or.inl rfl)
        have hrest := ihx.mpr (fun a ha => hall a (Or.inr ha))
        omega

/-! ## Claims -/

/-- **C4**: for an ensemble holding `N ≥ 1` estimators with `N` equal to the
`n_estimators` attribute, the averaged forward pass (`FusionClassifier._forward`
and `FusionRegressor.forward`) returns elementwise `(1/N) · Σᵢ estimatorᵢ(X)`;
in particular, when each estimator returns a constant vector `vᵢ`, every output
entry equals `(Σᵢ vᵢ)/N`. -/
theorem avg_forward_is_mean {ι : Type} (s : EnsembleState ι) (N : ℕ)
    (hN1 : s.n_estimators = N) (hN2 : s.estimators_.length = N) (hN : 1 ≤ N) :
    (∀ (X : ι) (j : ℕ), j < s.n_outputs →
      FusionClassifier._forward s X j
          = (s.estimators_.map (fun e => e s.training X j)).sum / (N : ℝ)
        ∧ FusionRegressor.forward s X j
          = (s.estimators_.map (fun e => e s.training X j)).sum / (N : ℝ))
    ∧ (∀ vs : List (ℕ → ℝ), s.estimators_ = vs.map (fun v => fun _ _ => v) →
        ∀ (X : ι) (j : ℕ), j < s.n_outputs →
          FusionClassifier._forward s X j = (vs.map (fun v => v j)).sum / (N : ℝ)
          ∧ FusionRegressor.forward s X j = (vs.map (fun v => v j)).sum / (N : ℝ)) := by
  have hmain : ∀ (X : ι) (j : ℕ), j < s.n_outputs →
      FusionClassifier._forward s X j
        = (s.estimators_.map (fun e => e s.training X j)).sum / (N : ℝ)
      ∧ FusionRegressor.forward s X j
        = (s.estimators_.map (fun e => e s.training X j)).sum / (N : ℝ) := by
    intro X j hj
    constructor
    · rw [FusionClassifier._forward, if_pos hj, avg_foldl_eq, hN1]
    · rw [FusionRegressor.forward, if_pos hj, avg_foldl_eq, hN1]
  refine ⟨hmain, ?_⟩
  intro vs hvs X j hj
  have hmap : (s.estimators_.map (fun e => e s.training X j)).sum
      = (vs.map (fun v => v j)).sum := by
    rw [hvs, List.map_map]
    rfl
  rcases hmain X j hj with ⟨h1, h2⟩
  rw [hmap] at h1 h2
  exact ⟨h1, h2⟩

/-- Concrete two-estimator state used by witnesses: the regression scenario of
the spec (constant estimators `[2.0]` and `[4.0]`). -/
noncomputable def stateTwo : EnsembleState ℕ :=
  { n_estimators := 2, device := 0,
    estimators_ := [fun _ _ _ => (2 : ℝ), fun _ _ _ => (4 : ℝ)],
    n_outputs := 1, training := false, calls := 2 }

/-- Witness for C4 at the spec's regression scenario. -/
theorem avg_forward_is_mean_witness :
    stateTwo.n_estimators = 2 ∧ stateTwo.estimators_.length = 2 ∧ 1 ≤ 2
    ∧ (0 : ℕ) < stateTwo.n_outputs
    ∧ FusionClassifier._forward stateTwo 0 0
        = (stateTwo.estimators_.map (fun e => e stateTwo.training 0 0)).sum / (2 : ℝ)
    ∧ FusionRegressor.forward stateTwo 0 0
        = (stateTwo.estimators_.map (fun e => e stateTwo.training 0 0)).sum / (2 : ℝ) := by
  refine ⟨rfl, rfl, by omega, by decide, ?_, ?_⟩
  · exact ((avg_forward_is_mean stateTwo 2 rfl rfl (by omega)).1 0 0 (by decide)).1
  · exact ((avg_forward_is_mean stateTwo 2 rfl rfl (by omega)).1 0 0 (by decide)).2

/-- **C6**: every row of `FusionClassifier.forward` is a probability
distribution: entries are non-negative and sum (over the `n_outputs` classes)
to 1 — the softmax postcondition. -/
theorem forward_rows_are_distributions {ι : Type} (s : EnsembleState ι) (X : ι)
    (hK : 0 < s.n_outputs) :
    (∀ j, 0 ≤ FusionClassifier.forward s X j)
    ∧ ∑ j ∈ Finset.range s.n_outputs, FusionClassifier.forward s X j = 1 := by
  set v := FusionClassifier._forward s X with hv
  have hSpos : 0 < ∑ i ∈ Finset.range s.n_outputs, Real.exp (v i) :=
    Finset.sum_pos (fun i _ => Real.exp_pos _)
      ⟨0, Finset.mem_range.mpr hK⟩
  constructor
  · intro j
    rw [FusionClassifier.forward, softmaxRow]
    by_cases hj : j < s.n_outputs
    · rw [if_pos hj]
      exact div_nonneg (Real.exp_nonneg _) hSpos.le
    · rw [if_neg hj]
  · rw [FusionClassifier.forward]
    have : ∀ j ∈ Finset.range s.n_outputs,
        softmaxRow s.n_outputs v j
          = Real.exp (v j) / ∑ i ∈ Finset.range s.n_outputs, Real.exp (v i) := by
      intro j hj
      rw [softmaxRow, if_pos (Finset.mem_range.mp hj)]
    rw [Finset.sum_congr rfl this, ← Finset.sum_div, div_self hSpos.ne']

/-- Witness for C6 on a one-class state. -/
theorem forward_rows_are_distributions_witness :
    (0 : ℕ) < stateTwo.n_outputs
    ∧ (∀ j, 0 ≤ FusionClassifier.forward stateTwo 0 j)
    ∧ ∑ j ∈ Finset.range stateTwo.n_outputs, FusionClassifier.forward stateTwo 0 j = 1 := by
  refine ⟨by decide, ?_, ?_⟩
  · exact (forward_rows_are_distributions stateTwo 0 (by decide)).1
  · exact (forward_rows_are_distributions stateTwo 0 (by decide)).2

lemma foldl_argmax_congr (v w : ℕ → ℝ) (K : ℕ)
    (hvw : ∀ i < K, ∀ j < K, (v i < v j ↔ w i < w j)) :
    ∀ l : List ℕ, (∀ j ∈ l, j < K) → ∀ b, b < K →
      l.foldl (fun best j => if v best < v j then j else best) b
        = l.foldl (fun best j => if w best < w j then j else best) b
  | [], _, _, _ => rfl
  | j :: js, hl, b, hb => by
      have hj : j < K := hl j (by simp)
      have hstep : (if v b < v j then j else b) = (if w b < w j then j else b) :=
        if_congr (hvw b hb j hj) rfl rfl
      have hnb : (if w b < w j then j else b) < K := by
        by_cases h : w b < w j
        · rw [if_pos h]; exact hj
        · rw [if_neg h]; exact hb
      simp only [List.foldl_cons]
      rw [hstep]
      exact foldl_argmax_congr v w K hvw js (fun a ha => hl a (by simp [ha])) _ hnb

/-- Per-row softmax preserves the first-maximum index: softmax is strictly
monotone entrywise (same positive denominator, `exp` strictly increasing). -/
lemma argmax_softmaxRow (K : ℕ) (v : ℕ → ℝ) :
    argmaxIdx K (softmaxRow K v) = argmaxIdx K v := by
  rcases Nat.eq_zero_or_pos K with hK | hK
  · subst hK; rfl
  · have hSpos : 0 < ∑ i ∈ Finset.range K, Real.exp (v i) :=
      Finset.sum_pos (fun i _ => Real.exp_pos _) ⟨0, Finset.mem_range.mpr hK⟩
    have hvw : ∀ i < K, ∀ j < K, (softmaxRow K v i < softmaxRow K v j ↔ v i < v j) := by
      intro i hi j hj
      simp only [softmaxRow]
      rw [if_pos hi, if_pos hj, div_lt_div_iff_of_pos_right hSpos, Real.exp_lt_exp]
    rw [argmaxIdx, argmaxIdx]
    exact foldl_argmax_congr _ _ K hvw (List.range K)
      (fun j hj => List.mem_range.mp hj) 0 hK

/-- **C8**: the per-row arg-max of `FusionClassifier.forward` (post-softmax)
equals the per-row arg-max of `FusionClassifier._forward` (pre-softmax), so
the correct-count logged by `fit` (computed on the pre-softmax output) and the
match-count of `predict` (computed on the softmaxed output) agree on the
predicted class of every example of every batch. -/
theorem argmax_pre_post_softmax_agree {ι : Type} (s : EnsembleState ι) :
    (∀ X : ι, argmaxIdx s.n_outputs (FusionClassifier.forward s X)
        = argmaxIdx s.n_outputs (FusionClassifier._forward s X))
    ∧ ∀ b : List (ι × ℕ),
        FusionClassifier.predCorrect s b = FusionClassifier.logCorrect s b := by
  have hrow : ∀ X : ι, argmaxIdx s.n_outputs (FusionClassifier.forward s X)
      = argmaxIdx s.n_outputs (FusionClassifier._forward s X) := by
    intro X
    rw [FusionClassifier.forward, argmax_softmaxRow]
  refine ⟨hrow, ?_⟩
  intro b
  rw [FusionClassifier.predCorrect, FusionClassifier.logCorrect]
  have hfun : (fun r : ι × ℕ =>
        argmaxIdx s.n_outputs (FusionClassifier.forward s r.1) == r.2)
      = (fun r : ι × ℕ =>
        argmaxIdx s.n_outputs (FusionClassifier._forward s r.1) == r.2) :=
    funext fun r => by rw [hrow r.1]
  rw [hfun]

/-- **C9**: the final division of `FusionRegressor.predict` is by the number
of batches and that of `FusionClassifier.predict` is by the dataset length,
so the result exists exactly when the test loader has at least one batch
(regression), resp. the underlying dataset is non-empty (classification);
with a zero divisor the Python float division raises, modelled as `none`. -/
theorem predict_requires_nonempty {ι : Type} (s : EnsembleState ι)
    (Lc : ClsLoader ι) (LR : RegLoader ι) :
    ((FusionRegressor.predict s LR).1.isSome ↔ LR.batches ≠ [])
    ∧ ((FusionClassifier.predict s Lc).1.isSome ↔ (Lc.map List.length).sum ≠ 0) := by
  constructor
  · rw [FusionRegressor.predict]
    by_cases h : LR.batches.length = 0
    · simp [h, List.length_eq_zero.mp h]
    · have hne : LR.batches ≠ [] := fun he => h (by simp [he])
      simp [h, hne]
  · rw [FusionClassifier.predict]
    by_cases h : (Lc.map List.length).sum = 0
    · simp [h]
    · simp [h]

/-- **C7**: two `predict` calls (classifier or regressor) on the same
ensemble with an identical test loader return identical results: `predict`
first switches to eval mode, the evaluated estimators are deterministic
functions in eval mode, and `predict` alters no field it reads (it changes
only the train/eval mode flag). -/
theorem predict_deterministic {ι : Type} (s : EnsembleState ι)
    (Lc : ClsLoader ι) (LR : RegLoader ι) :
    (FusionClassifier.predict (FusionClassifier.predict s Lc).2 Lc).1
        = (FusionClassifier.predict s Lc).1
    ∧ (FusionClassifier.predict (FusionClassifier.predict s Lc).2 Lc).2
        = (FusionClassifier.predict s Lc).2
    ∧ (FusionRegressor.predict (FusionRegressor.predict s LR).2 LR).1
        = (FusionRegressor.predict s LR).1
    ∧ (FusionRegressor.predict (FusionRegressor.predict s LR).2 LR).2
        = (FusionRegressor.predict s LR).2
    ∧ (FusionClassifier.predict s Lc).2.estimators_ = s.estimators_
    ∧ (FusionClassifier.predict s Lc).2.n_outputs = s.n_outputs
    ∧ (FusionClassifier.predict s Lc).2.n_estimators = s.n_estimators
    ∧ (FusionRegressor.predict s LR).2.estimators_ = s.estimators_
    ∧ (FusionRegressor.predict s LR).2.n_outputs = s.n_outputs
    ∧ (FusionRegressor.predict s LR).2.n_estimators = s.n_estimators := by
  have hsndC : ∀ t : EnsembleState ι,
      (FusionClassifier.predict t Lc).2 = { t with training := false } := by
    intro t
    rw [FusionClassifier.predict]
    by_cases h : (Lc.map List.length).sum = 0 <;> simp [h]
  have hsndR : ∀ t : EnsembleState ι,
      (FusionRegressor.predict t LR).2 = { t with training := false } := by
    intro t
    rw [FusionRegressor.predict]
    by_cases h : LR.batches.length = 0 <;> simp [h]
  refine ⟨?_, ?_, ?_, ?_, ?_, ?_, ?_, ?_, ?_, ?_⟩
  · rw [hsndC s]; rfl
  · rw [hsndC s, hsndC]
  · rw [hsndR s]; rfl
  · rw [hsndR s, hsndR]
  · rw [hsndC s]
  · rw [hsndC s]
  · rw [hsndC s]
  · rw [hsndR s]
  · rw [hsndR s]
  · rw [hsndR s]

/-- **C2**: `FusionClassifier.predict` returns `100 · matches / total` where
`matches` counts the test examples whose predicted arg-max class equals the
integer target and `total` is the number of test examples; the result lies in
`[0, 100]` and equals `100` exactly when every predicted arg-max matches the
target in every test batch. -/
theorem predict_accuracy {ι : Type} (s : EnsembleState ι) (L : ClsLoader ι)
    (htotal : (L.map List.length).sum ≠ 0) :
    (FusionClassifier.predict s L).1
      = some (100 * ((L.map (fun b =>
            FusionClassifier.predCorrect { s with training := false } b)).sum : ℝ)
          / ((L.map List.length).sum : ℝ))
    ∧ ∀ r : ℝ, (FusionClassifier.predict s L).1 = some r →
        0 ≤ r ∧ r ≤ 100
        ∧ (r = 100 ↔ ∀ b ∈ L, ∀ p ∈ b,
            argmaxIdx s.n_outputs
              (FusionClassifier.forward { s with training := false } p.1) = p.2) := by
  have hval : (FusionClassifier.predict s L).1
      = some (100 * ((L.map (fun b =>
            FusionClassifier.predCorrect { s with training := false } b)).sum : ℝ)
          / ((L.map List.length).sum : ℝ)) := by
    rw [FusionClassifier.predict]
    simp only [if_neg htotal]
  refine ⟨hval, ?_⟩
  intro r hr
  rw [hval] at hr
  obtain rfl := (Option.some.inj hr).symm
  have hle : ∀ b ∈ L, FusionClassifier.predCorrect { s with training := false } b
      ≤ b.length := by
    intro b _
    rw [FusionClassifier.predCorrect]
    exact List.countP_le_length _
  have hct : (L.map (fun b =>
        FusionClassifier.predCorrect { s with training := false } b)).sum
      ≤ (L.map List.length).sum := sum_map_nat_le L _ _ hle
  have htpos : (0 : ℝ) < ((L.map List.length).sum : ℝ) := by
    exact_mod_cast Nat.pos_of_ne_zero htotal
  have hcr : ((L.map (fun b =>
        FusionClassifier.predCorrect { s with training := false } b)).sum : ℝ)
      ≤ ((L.map List.length).sum : ℝ) := Nat.cast_le.mpr hct
  refine ⟨?_, ?_, ?_⟩
  · exact div_nonneg (mul_nonneg (by norm_num) (Nat.cast_nonneg _)) htpos.le
  · rw [div_le_iff₀ htpos]
    nlinarith
  · have h100 : 100 * ((L.map (fun b =>
          FusionClassifier.predCorrect { s with training := false } b)).sum : ℝ)
          / ((L.map List.length).sum : ℝ) = 100
        ↔ (L.map (fun b =>
            FusionClassifier.predCorrect { s with training := false } b)).sum
          = (L.map List.length).sum := by
      rw [div_eq_iff htpos.ne']
      constructor
      · intro h
        have : ((L.map (fun b =>
            FusionClassifier.predCorrect { s with training := false } b)).sum : ℝ)
            = ((L.map List.length).sum : ℝ) := by linarith
        exact_mod_cast this
      · intro h
        rw [h]
    rw [h100, sum_map_nat_eq_iff _ _ L hle]
    apply forall₂_congr
    intro b _
    rw [FusionClassifier.predCorrect, List.countP_eq_length]
    apply forall₂_congr
    intro p _
    simp only [beq_iff_eq]

/-- One-batch, one-example classification loader used by witnesses. -/
def clsLoaderOne : ClsLoader ℕ := [[(0, 0)]]

/-- Witness for C2 on a concrete one-example loader. -/
theorem predict_accuracy_witness :
    (clsLoaderOne.map List.length).sum ≠ 0
    ∧ (FusionClassifier.predict stateTwo clsLoaderOne).1
      = some (100 * ((clsLoaderOne.map (fun b =>
            FusionClassifier.predCorrect { stateTwo with training := false } b)).sum : ℝ)
          / ((clsLoaderOne.map List.length).sum : ℝ)) :=
  ⟨by decide, (predict_accuracy stateTwo clsLoaderOne (by decide)).1⟩

/-- **C3**: `FusionRegressor.predict` returns the arithmetic mean over
batches of the per-batch MSE values — the sum of per-batch MSEs divided by
the number of batches, not a global per-example mean; the result is
non-negative, and it equals 0 when the averaged predictions exactly match
the targets on every batch. -/
theorem predict_mse_mean {ι : Type} (s : EnsembleState ι) (L : RegLoader ι)
    (hL : L.batches ≠ []) :
    (FusionRegressor.predict s L).1
      = some ((L.batches.map (fun b =>
            FusionRegressor.batchMSE { s with training := false } b)).sum
          / (L.batches.length : ℝ))
    ∧ ∀ r : ℝ, (FusionRegressor.predict s L).1 = some r →
        0 ≤ r
        ∧ ((∀ b ∈ L.batches, ∀ p ∈ b, ∀ j < s.n_outputs,
              FusionRegressor.forward { s with training := false } p.1 j = p.2 j) →
            r = 0) := by
  have hlen : L.batches.length ≠ 0 := fun h => hL (List.length_eq_zero.mp h)
  have hval : (FusionRegressor.predict s L).1
      = some ((L.batches.map (fun b =>
            FusionRegressor.batchMSE { s with training := false } b)).sum
          / (L.batches.length : ℝ)) := by
    rw [FusionRegressor.predict]
    simp only [if_neg hlen]
  refine ⟨hval, ?_⟩
  intro r hr
  rw [hval] at hr
  obtain rfl := (Option.some.inj hr).symm
  have hmse_nonneg : ∀ b ∈ L.batches,
      0 ≤ FusionRegressor.batchMSE { s with training := false } b := by
    intro b _
    rw [FusionRegressor.batchMSE, mseCriterion]
    refine div_nonneg (List.sum_nonneg ?_)
      (mul_nonneg (Nat.cast_nonneg _) (Nat.cast_nonneg _))
    intro x hx
    obtain ⟨p, _, rfl⟩ := List.mem_map.mp hx
    exact Finset.sum_nonneg fun j _ => sq_nonneg _
  constructor
  · refine div_nonneg (List.sum_nonneg ?_) (Nat.cast_nonneg _)
    intro x hx
    obtain ⟨b, hb, rfl⟩ := List.mem_map.mp hx
    exact hmse_nonneg b hb
  · intro hexact
    have hzero : ∀ b ∈ L.batches,
        FusionRegressor.batchMSE { s with training := false } b = 0 := by
      intro b hb
      rw [FusionRegressor.batchMSE, mseCriterion]
      have : ∀ x ∈ (b.map (fun p =>
          (FusionRegressor.forward { s with training := false } p.1, p.2))).map
            (fun p => ∑ j ∈ Finset.range
              (EnsembleState.n_outputs { s with training := false }),
                (p.1 j - p.2 j) ^ 2), x = 0 := by
        intro x hx
        obtain ⟨q, hq, rfl⟩ := List.mem_map.mp hx
        obtain ⟨p, hp, rfl⟩ := List.mem_map.mp hq
        refine Finset.sum_eq_zero fun j hj => ?_
        have hmatch := hexact b hb p hp j (Finset.mem_range.mp hj)
        simp only
        rw [hmatch, sub_self]
        norm_num
      rw [List.sum_eq_zero this, zero_div]
    have : ∀ x ∈ L.batches.map (fun b =>
        FusionRegressor.batchMSE { s with training := false } b), x = 0 := by
      intro x hx
      obtain ⟨b, hb, rfl⟩ := List.mem_map.mp hx
      exact hzero b hb
    rw [List.sum_eq_zero this, zero_div]

/-- One-batch regression loader matching the spec's regression scenario
(constant target `[3.0]`). -/
noncomputable def regLoaderOne : RegLoader ℕ :=
  { width := 1, batches := [[(0, fun _ => (3 : ℝ))]] }

/-- Witness for C3 on a concrete one-batch loader. -/
theorem predict_mse_mean_witness :
    regLoaderOne.batches ≠ []
    ∧ (FusionRegressor.predict stateTwo regLoaderOne).1
      = some ((regLoaderOne.batches.map (fun b =>
            FusionRegressor.batchMSE { stateTwo with training := false } b)).sum
          / (regLoaderOne.batches.length : ℝ)) :=
  ⟨List.cons_ne_nil _ _, (predict_mse_mean stateTwo regLoaderOne (List.cons_ne_nil _ _)).1⟩

lemma foldl_preserves_length {α E : Type} (f : List E → α → List E)
    (h : ∀ es a, (f es a).length = es.length) :
    ∀ (l : List α) (es : List E), (l.foldl f es).length = es.length
  | [], _ => rfl
  | a :: l, es => by rw [List.foldl_cons, foldl_preserves_length f h l, h]

lemma trainLoop_length {ι β : Type} (env : FitEnv ι β) (loader : List β)
    (epochs : ℤ) (es : List (Estimator ι)) :
    (trainLoop env loader epochs es).length = es.length := by
  rw [trainLoop]
  refine foldl_preserves_length _ (fun es _ => ?_) _ _
  exact foldl_preserves_length _ (fun es b => List.length_map _ _) loader es

lemma freshEstimators_length {ι β : Type} (env : FitEnv ι β)
    (s : EnsembleState ι) : (freshEstimators env s).length = s.n_estimators := by
  simp [freshEstimators]

/-- Concrete environment, state and loaders used by the counterexamples and
witnesses about `fit`. -/
def envCls : FitEnv ℕ (List (ℕ × ℕ)) :=
  { make := fun _ => fun _ _ _ => 0, step := fun _ _ e => e }

/-- Concrete regression environment for the `fit` theorems. -/
def envReg : FitEnv ℕ (List (ℕ × (ℕ → ℝ))) :=
  { make := fun _ => fun _ _ _ => 0, step := fun _ _ e => e }

/-- A two-class, one-batch training loader. -/
def clsLoaderTwo : ClsLoader ℕ := [[(0, 0), (0, 1)]]

/-- **C1** (amended): with a supported optimizer kind and invalid
hyperparameters (`lr ≤ 0`, `weight_decay < 0`, `epochs ≤ 0` or
`log_interval ≤ 0`), both `fit`s raise a validation error before any training
step — but only after constructing and appending the `n_estimators` fresh
estimators and overwriting `n_outputs`, so the ensemble state is changed on
rejection: `estimators_` equals the old collection followed by the fresh
(still untrained) instances, and `n_outputs` holds the inferred value. -/
theorem fit_validates_before_training {ι : Type}
    (env : FitEnv ι (List (ι × ℕ))) (envR : FitEnv ι (List (ι × (ℕ → ℝ))))
    (s : EnsembleState ι) (Lc : ClsLoader ι) (LR : RegLoader ι)
    (lr weight_decay : ℚ) (epochs log_interval : ℤ) (optimizer : String)
    (hopt : validOptimizerKind optimizer)
    (hbad : ¬ validParameters lr weight_decay epochs log_interval) :
    (FusionClassifier.fit env s Lc lr weight_decay epochs optimizer log_interval).1
        = some FitError.validation
    ∧ (FusionClassifier.fit env s Lc lr weight_decay epochs optimizer log_interval).2.estimators_
        = s.estimators_ ++ freshEstimators env s
    ∧ (FusionClassifier.fit env s Lc lr weight_decay epochs optimizer log_interval).2.n_outputs
        = decideOutputsCls Lc
    ∧ (FusionRegressor.fit envR s LR lr weight_decay epochs optimizer log_interval).1
        = some FitError.validation
    ∧ (FusionRegressor.fit envR s LR lr weight_decay epochs optimizer log_interval).2.estimators_
        = s.estimators_ ++ freshEstimators envR s
    ∧ (FusionRegressor.fit envR s LR lr weight_decay epochs optimizer log_interval).2.n_outputs
        = decideOutputsReg LR := by
  have h1 : ¬¬ validOptimizerKind optimizer := fun h => h hopt
  rw [FusionClassifier.fit, FusionRegressor.fit]
  simp only [if_neg h1, if_pos hbad]
  exact ⟨trivial, trivial, trivial, trivial, trivial, trivial⟩

/-- Witness for the amended C1 at `epochs = 0`. -/
theorem fit_validates_before_training_witness :
    validOptimizerKind "Adam"
    ∧ ¬ validParameters 1 0 0 1
    ∧ (FusionClassifier.fit envCls (initState ℕ 2 0) clsLoaderTwo 1 0 0 "Adam" 1).1
        = some FitError.validation :=
  ⟨by decide, by decide,
   (fit_validates_before_training envCls envReg (initState ℕ 2 0) clsLoaderTwo
      regLoaderOne 1 0 0 1 "Adam" (by decide) (by decide)).1⟩

/-- Counterexample to C1 as stated: calling `FusionClassifier.fit` with the
invalid `epochs = 0` raises the validation error, yet two estimators have
already been constructed and appended and `n_outputs` has been overwritten —
the claimed "before any estimator is constructed … leaving the ensemble state
unchanged on rejection" is false. -/
theorem fit_rejection_mutates_state :
    (FusionClassifier.fit envCls (initState ℕ 2 0) clsLoaderTwo 1 0 0 "Adam" 1).1
        = some FitError.validation
    ∧ (initState ℕ 2 0).estimators_.length = 0
    ∧ (FusionClassifier.fit envCls (initState ℕ 2 0) clsLoaderTwo 1 0 0 "Adam" 1).2.estimators_.length
        = 2
    ∧ (initState ℕ 2 0).n_outputs = 0
    ∧ (FusionClassifier.fit envCls (initState ℕ 2 0) clsLoaderTwo 1 0 0 "Adam" 1).2.n_outputs
        = 2 := by
  decide

/-- **C5** (amended): `estimators_` is empty at initialization; each `fit`
call invokes the zero-argument factory exactly `n_estimators` times (the
invocation counter grows by `n_estimators`) and appends the fresh instances
in invocation order, growing the collection by `n_estimators` — so after the
first `fit` on a fresh ensemble the length is `n_estimators`, but the length
is not fixed for the module's lifetime: every further `fit` call grows it by
another `n_estimators` (the collection is never reset). -/
theorem estimator_lifecycle {ι : Type}
    (env : FitEnv ι (List (ι × ℕ))) (envR : FitEnv ι (List (ι × (ℕ → ℝ))))
    (s : EnsembleState ι) (Lc : ClsLoader ι) (LR : RegLoader ι)
    (lr weight_decay : ℚ) (epochs log_interval : ℤ) (optimizer : String)
    (hbad : ¬ validParameters lr weight_decay epochs log_interval) :
    (∀ n d, (initState ι n d).estimators_ = [])
    ∧ (∀ (lr' wd' : ℚ) (ep' li' : ℤ) (opt' : String),
        (FusionClassifier.fit env s Lc lr' wd' ep' opt' li').2.calls
            = s.calls + s.n_estimators
        ∧ (FusionClassifier.fit env s Lc lr' wd' ep' opt' li').2.estimators_.length
            = s.estimators_.length + s.n_estimators
        ∧ (FusionRegressor.fit envR s LR lr' wd' ep' opt' li').2.calls
            = s.calls + s.n_estimators
        ∧ (FusionRegressor.fit envR s LR lr' wd' ep' opt' li').2.estimators_.length
            = s.estimators_.length + s.n_estimators)
    ∧ (FusionClassifier.fit env s Lc lr weight_decay epochs optimizer log_interval).2.estimators_
        = s.estimators_ ++ freshEstimators env s := by
  refine ⟨fun n d => rfl, ?_, ?_⟩
  · intro lr' wd' ep' li' opt'
    refine ⟨?_, ?_, ?_, ?_⟩
    · rw [FusionClassifier.fit]
      split_ifs <;> rfl
    · rw [FusionClassifier.fit]
      split_ifs <;>
        simp [trainLoop_length, List.length_append, freshEstimators_length]
    · rw [FusionRegressor.fit]
      split_ifs <;> rfl
    · rw [FusionRegressor.fit]
      split_ifs <;>
        simp [trainLoop_length, List.length_append, freshEstimators_length]
  · rw [FusionClassifier.fit]
    by_cases h1 : validOptimizerKind optimizer
    · simp only [if_neg (not_not_intro h1), if_pos hbad]
    · simp only [if_pos h1]

/-- Witness for the amended C5 at `epochs = 0`. -/
theorem estimator_lifecycle_witness :
    ¬ validParameters 1 0 0 1
    ∧ (initState ℕ 2 0).estimators_ = []
    ∧ (FusionClassifier.fit envCls (initState ℕ 2 0) clsLoaderTwo 1 0 0 "Adam" 1).2.estimators_
        = (initState ℕ 2 0).estimators_ ++ freshEstimators envCls (initState ℕ 2 0) :=
  ⟨by decide,
   (estimator_lifecycle envCls envReg (initState ℕ 2 0) clsLoaderTwo regLoaderOne
      1 0 0 1 "Adam" (by decide)).1 2 0,
   (estimator_lifecycle envCls envReg (initState ℕ 2 0) clsLoaderTwo regLoaderOne
      1 0 0 1 "Adam" (by decide)).2.2⟩

/-- Counterexample to C5 as stated: on a fresh ensemble with
`n_estimators = 1`, two successful `fit` calls leave `estimators_` with
length 2, not `n_estimators` — the length is not `n_estimators` "for the
module's lifetime". -/
theorem fit_twice_duplicates_estimators :
    (initState ℕ 1 0).n_estimators = 1
    ∧ (FusionClassifier.fit envCls (initState ℕ 1 0) clsLoaderTwo 1 0 1 "Adam" 1).1 = none
    ∧ (FusionClassifier.fit envCls (initState ℕ 1 0) clsLoaderTwo 1 0 1 "Adam" 1).2.estimators_.length
        = 1
    ∧ (FusionClassifier.fit envCls
        (FusionClassifier.fit envCls (initState ℕ 1 0) clsLoaderTwo 1 0 1 "Adam" 1).2
        clsLoaderTwo 1 0 1 "Adam" 1).1 = none
    ∧ (FusionClassifier.fit envCls
        (FusionClassifier.fit envCls (initState ℕ 1 0) clsLoaderTwo 1 0 1 "Adam" 1).2
        clsLoaderTwo 1 0 1 "Adam" 1).2.estimators_.length = 2 := by
  decide

/-- **C10** (amended): every `fit` or `predict` call, successful or failed,
leaves `n_estimators` and `device` unchanged; `fit` mutates only
`estimators_`, `n_outputs`, the train/eval mode flag (set to train mode once
the optimizer kind is accepted) and the estimators' parameters, and `predict`
mutates nothing but the train/eval mode flag. -/
theorem fit_predict_frame {ι : Type}
    (env : FitEnv ι (List (ι × ℕ))) (envR : FitEnv ι (List (ι × (ℕ → ℝ))))
    (s : EnsembleState ι) (Lc : ClsLoader ι) (LR : RegLoader ι)
    (lr weight_decay : ℚ) (epochs log_interval : ℤ) (optimizer : String) :
    (FusionClassifier.fit env s Lc lr weight_decay epochs optimizer log_interval).2.n_estimators
        = s.n_estimators
    ∧ (FusionClassifier.fit env s Lc lr weight_decay epochs optimizer log_interval).2.device
        = s.device
    ∧ (FusionRegressor.fit envR s LR lr weight_decay epochs optimizer log_interval).2.n_estimators
        = s.n_estimators
    ∧ (FusionRegressor.fit envR s LR lr weight_decay epochs optimizer log_interval).2.device
        = s.device
    ∧ (FusionClassifier.predict s Lc).2 = { s with training := false }
    ∧ (FusionRegressor.predict s LR).2 = { s with training := false } := by
  refine ⟨?_, ?_, ?_, ?_, ?_, ?_⟩
  · rw [FusionClassifier.fit]; split_ifs <;> rfl
  · rw [FusionClassifier.fit]; split_ifs <;> rfl
  · rw [FusionRegressor.fit]; split_ifs <;> rfl
  · rw [FusionRegressor.fit]; split_ifs <;> rfl
  · rw [FusionClassifier.predict]
    by_cases h : (Lc.map List.length).sum = 0 <;> simp [h]
  · rw [FusionRegressor.predict]
    by_cases h : LR.batches.length = 0 <;> simp [h]

/-- Counterexample to C10 as stated: a successful `FusionClassifier.fit`
call on an ensemble that starts in eval mode flips the train-mode flag to
`true`, a field outside the claim's enumerated mutation set (`estimators_`,
`n_outputs`, estimator parameters). -/
theorem fit_sets_train_mode_flag :
    ({ initState ℕ 1 0 with training := false }).training = false
    ∧ (FusionClassifier.fit envCls { initState ℕ 1 0 with training := false }
        clsLoaderTwo 1 0 1 "Adam" 1).1 = none
    ∧ (FusionClassifier.fit envCls { initState ℕ 1 0 with training := false }
        clsLoaderTwo 1 0 1 "Adam" 1).2.training = true := by
  decide

end Torchensemble
